import Mathlib

set_option maxHeartbeats 1000000

/-!
Shallow embedding of the multitask DDPG core of `mushroom-rl-meta`
(`mushroom_rl_meta/algorithms/shared_ddpg.py`) and of the runner loop of
`examples/shared/ddpg/exp_shared_bullet.py`, together with theorems settling
the spec claims about them.

Modelling conventions: numpy float entries become rationals (`ℚ`), the
pre-allocated scratch arrays become total functions on indices (only indices
below `batch_size * n_games` are ever meaningful, matching the allocated
shapes), the random sampling of the replay buffers is driven by explicit index
oracles, and the external approximator machinery (gradient fits, target
actor/critic forward passes) is passed in as opaque function parameters.
-/

/-- A transition as routed by `SharedDDPG.fit`: the `state` and `next_state`
carry the task id as their first component (the code reads `d[0][0]` for the
task id) and the task-width observation vector as their second component. -/
structure Transition where
  state : ℤ × List ℚ
  action : List ℚ
  reward : ℚ
  next_state : ℤ × List ℚ
  absorbing : Bool
  last : Bool
  deriving DecidableEq, Inhabited

/-- Modelled from the spec: `ReplayMemoryMulty` (module
`mushroom_rl_meta.replay_memory`, imported by `shared_ddpg.py` but not among
the sources at hand).  Per spec §4.1 it is a fixed-capacity circular store:
`add` appends transitions and evicts the oldest entries once `max_size` is
exceeded, `initialized` becomes true once the stored count reaches
`initial_size`, and `get n` returns `n` sampled-with-replacement transitions
as parallel arrays, failing if called before `initialized`. -/
structure ReplayMemoryMulty where
  initial_size : ℕ
  max_size : ℕ
  buffer : List Transition
  deriving DecidableEq, Inhabited

/-- Modelled from the spec: circular `add` (append, FIFO eviction beyond
`max_size`). -/
def ReplayMemoryMulty.add (rm : ReplayMemoryMulty) (d : List Transition) :
    ReplayMemoryMulty :=
  let b := rm.buffer ++ d
  { rm with buffer := b.drop (b.length - rm.max_size) }

/-- Modelled from the spec: readiness once the stored count reaches the
initial-fill threshold. -/
def ReplayMemoryMulty.initialized (rm : ReplayMemoryMulty) : Bool :=
  decide (rm.initial_size ≤ rm.buffer.length)

/-- The stored transition a sampling index designates (with-replacement
sampling is modelled by reducing the oracle's index modulo the store size). -/
def ReplayMemoryMulty.sampleAt (rm : ReplayMemoryMulty) (j : ℕ) : Transition :=
  rm.buffer.getD (j % rm.buffer.length) default

/-- Modelled from the spec: `get n` returns `n` sampled transitions as the
parallel arrays (states, actions, rewards, next states, absorbing flags); it
fails (`none`) when the buffer is not yet `initialized`. -/
def ReplayMemoryMulty.get (rm : ReplayMemoryMulty) (n : ℕ) (oracle : ℕ → ℕ) :
    Option (List (List ℚ) × List (List ℚ) × List ℚ × List (List ℚ) × List Bool) :=
  if rm.initialized then
    some ((List.range n).map fun k => (rm.sampleAt (oracle k)).state.2,
          (List.range n).map fun k => (rm.sampleAt (oracle k)).action,
          (List.range n).map fun k => (rm.sampleAt (oracle k)).reward,
          (List.range n).map fun k => (rm.sampleAt (oracle k)).next_state.2,
          (List.range n).map fun k => (rm.sampleAt (oracle k)).absorbing)
  else none

/-- Modelled from the spec: the actor/critic network collaborators (spec §4.3
and §6) keep a static partition of their parameters into a shared part and
per-task head parts; `get_shared_weights` exports the shared part and
`set_shared_weights` overwrites it, leaving the per-task heads untouched. -/
structure MultiHeadNetwork where
  shared : List ℚ
  per_task : List (List ℚ)
  deriving DecidableEq, Inhabited

def MultiHeadNetwork.get_shared_weights (net : MultiHeadNetwork) : List ℚ :=
  net.shared

def MultiHeadNetwork.set_shared_weights (net : MultiHeadNetwork) (w : List ℚ) :
    MultiHeadNetwork :=
  { net with shared := w }

/-- The pre-allocated scratch arrays of `SharedDDPG._allocate_memory`,
modelled as total functions on row (and column) indices.  The allocated
shapes bound the indices the algorithm ever touches: rows below
`batch_size * n_games`, state columns below the maximal observation width,
action columns below the maximal action width. -/
structure Scratch where
  state_idxs : ℕ → ℕ
  state : ℕ → ℕ → ℚ
  action : ℕ → ℕ → ℚ
  reward : ℕ → ℚ
  next_state_idxs : ℕ → ℕ
  next_state : ℕ → ℕ → ℚ
  absorbing : ℕ → ℚ

/-- Zero-filled scratch, as `np.zeros` produces. -/
def Scratch.zeros : Scratch :=
  ⟨fun _ => 0, fun _ _ => 0, fun _ _ => 0, fun _ => 0,
   fun _ => 0, fun _ _ => 0, fun _ => 0⟩

/-- State of a `SharedDDPG` agent.  `n_input_per_mdp` and
`n_actions_per_head` hold the first components of the per-task shape tuples
(the code only ever reads `[...][0]`).  The flat weight vectors mirror
`model.get_weights()` as used by `_update_target`; the structured networks
mirror `model.network` as used by the shared-weight accessors. -/
structure SharedDDPG where
  batch_size : ℕ
  n_input_per_mdp : List ℕ
  n_actions_per_head : List ℕ
  tau : ℚ
  gamma : List ℚ
  replay_memory : List ReplayMemoryMulty
  n_updates : ℕ
  scratch : Scratch
  critic_weights : List ℚ
  target_critic_weights : List ℚ
  actor_weights : List ℚ
  target_actor_weights : List ℚ
  critic_network : MultiHeadNetwork
  actor_network : MultiHeadNetwork

/-- `SharedDDPG._allocate_memory`: the scratch arrays are allocated
zero-filled. -/
def SharedDDPG.allocate_memory (ag : SharedDDPG) : SharedDDPG :=
  { ag with scratch := Scratch.zeros }

/-- `SharedDDPG.get_shared_weights`: a two-element bundle, critic part
first. -/
def SharedDDPG.get_shared_weights (ag : SharedDDPG) : List ℚ × List ℚ :=
  (ag.critic_network.get_shared_weights, ag.actor_network.get_shared_weights)

/-- `SharedDDPG.set_shared_weights`: `weights[0]` goes to the critic network,
`weights[1]` to the actor network. -/
def SharedDDPG.set_shared_weights (ag : SharedDDPG) (weights : List ℚ × List ℚ) :
    SharedDDPG :=
  { ag with critic_network := ag.critic_network.set_shared_weights weights.1,
            actor_network := ag.actor_network.set_shared_weights weights.2 }

/-- Per-parameter soft update `tau * live + (1 - tau) * target`, the
elementwise combination `_update_target` computes on the weight vectors. -/
def softUpdate (tau : ℚ) (live target : List ℚ) : List ℚ :=
  List.zipWith (fun l t => tau * l + (1 - tau) * t) live target

/-- `SharedDDPG._update_target`: soft-updates both target networks. -/
def SharedDDPG.update_target (ag : SharedDDPG) : SharedDDPG :=
  { ag with
      target_critic_weights := softUpdate ag.tau ag.critic_weights ag.target_critic_weights,
      target_actor_weights := softUpdate ag.tau ag.actor_weights ag.target_actor_weights }

/-- Shape of the target-actor forward pass: from the next-state matrix and the
per-row task indices to an action matrix. -/
abbrev ActorOracle := (ℕ → ℕ → ℚ) → (ℕ → ℕ) → ℕ → ℕ → ℚ

/-- Shape of the target-critic forward pass: from the next-state matrix, an
action matrix and the per-row task indices to a Q-value per row. -/
abbrev CriticOracle := (ℕ → ℕ → ℚ) → (ℕ → ℕ → ℚ) → (ℕ → ℕ) → ℕ → ℚ

/-- `SharedDDPG._next_q`: runs the target actor on the next states, the target
critic on (next state, target action), then per task block `i` multiplies by
`gamma[i]` and, when the block contains an absorbing flag, multiplies the
block by `1 - absorbing`.  The per-row form uses block index `r / batch_size`,
which on the meaningful rows (`r < batch_size * n_games`) is exactly the loop
variable of the source's blockwise loop. -/
def SharedDDPG.next_q (ag : SharedDDPG) (tActor : ActorOracle)
    (tCritic : CriticOracle) : ℕ → ℚ :=
  let a := tActor ag.scratch.next_state ag.scratch.next_state_idxs
  let q := tCritic ag.scratch.next_state a ag.scratch.next_state_idxs
  fun r =>
    let i := r / ag.batch_size
    let v := q r * ag.gamma.getD i 0
    if (List.range ag.batch_size).any
        (fun k => ag.scratch.absorbing (ag.batch_size * i + k) != 0) then
      v * (1 - ag.scratch.absorbing r)
    else v

/-- Python list indexing: a negative index counts from the end; an index out
of range (after that adjustment) is an error (`none`). -/
def pyIdx (n : ℕ) (g : ℤ) : Option ℕ :=
  let j := if g < 0 then g + n else g
  if 0 ≤ j ∧ j < (n : ℤ) then some j.toNat else none

/-- Insertion into an ascending list, the building block of the executable
sort below. -/
def insertSorted (a : ℤ) : List ℤ → List ℤ
  | [] => [a]
  | b :: l => if a ≤ b then a :: b :: l else b :: insertSorted a l

/-- Insertion sort on integers (structurally recursive, so that concrete
routing computations reduce). -/
def sortInts (l : List ℤ) : List ℤ :=
  l.foldr insertSorted []

/-- `np.unique`: the distinct values in ascending order. -/
def uniqueSorted (l : List ℤ) : List ℤ :=
  (sortInts l).dedup

/-- The routing loop of `SharedDDPG.fit`: for each distinct task id `g` (in
ascending order), the transitions whose id equals `g` are passed to
`replay_memory[g].add` under Python list-index semantics.  The boolean result
records whether an out-of-range index aborted the loop; the returned list is
the memories at that point (the exception aborts `fit`). -/
def routeGames (dataset : List Transition) :
    List ℤ → List ReplayMemoryMulty → List ReplayMemoryMulty × Bool
  | [], ms => (ms, false)
  | g :: gs, ms =>
    match pyIdx ms.length g with
    | some j =>
        routeGames dataset gs
          (ms.set j ((ms.getD j default).add
            (dataset.filter fun t => decide (t.state.1 = g))))
    | none => (ms, true)

/-- The replay memories after the routing phase of `fit`. -/
def routedMems (ag : SharedDDPG) (dataset : List Transition) :
    List ReplayMemoryMulty :=
  (routeGames dataset (uniqueSorted (dataset.map fun t => t.state.1))
    ag.replay_memory).1

/-- Whether the routing phase of `fit` aborts with an index error. -/
def routeErr (ag : SharedDDPG) (dataset : List Transition) : Bool :=
  (routeGames dataset (uniqueSorted (dataset.map fun t => t.state.1))
    ag.replay_memory).2

/-- The guard of `fit`: the conjunction of `initialized` over all task
buffers, evaluated after routing. -/
def fitCondition (ag : SharedDDPG) (dataset : List Transition) : Bool :=
  (routedMems ag dataset).all fun rm => rm.initialized

/-- One iteration of the batch-assembly loop of `fit` writes task `i`'s
sampled arrays into rows `batch_size * i .. batch_size * i + batch_size - 1`
of the scratch arrays: the first `n_input_per_mdp[i]` state columns, the
first `n_actions_per_head[i]` action columns, the rewards, the task indices
and the absorbing flags (booleans becoming 0/1 floats); all other entries
keep their previous values. -/
def writeBlock (ag : SharedDDPG) (sc : Scratch) (i : ℕ)
    (gs ga : List (List ℚ)) (gr : List ℚ) (gns : List (List ℚ))
    (gab : List Bool) : Scratch :=
  let B := ag.batch_size
  let start := B * i
  let ni := ag.n_input_per_mdp.getD i 0
  let na := ag.n_actions_per_head.getD i 0
  { state_idxs := fun r => if start ≤ r ∧ r < start + B then i else sc.state_idxs r,
    state := fun r c =>
      if start ≤ r ∧ r < start + B ∧ c < ni then (gs.getD (r - start) []).getD c 0
      else sc.state r c,
    action := fun r c =>
      if start ≤ r ∧ r < start + B ∧ c < na then (ga.getD (r - start) []).getD c 0
      else sc.action r c,
    reward := fun r =>
      if start ≤ r ∧ r < start + B then gr.getD (r - start) 0 else sc.reward r,
    next_state_idxs := fun r =>
      if start ≤ r ∧ r < start + B then i else sc.next_state_idxs r,
    next_state := fun r c =>
      if start ≤ r ∧ r < start + B ∧ c < ni then (gns.getD (r - start) []).getD c 0
      else sc.next_state r c,
    absorbing := fun r =>
      if start ≤ r ∧ r < start + B then (if gab.getD (r - start) false then 1 else 0)
      else sc.absorbing r }

/-- One iteration of the sampling loop of `fit`: call `get` on buffer `i`
(recording the call) and write the returned arrays into block `i`. -/
def fillStep (ag : SharedDDPG) (oracle : ℕ → ℕ → ℕ) (p : Scratch × List ℕ)
    (i : ℕ) : Scratch × List ℕ :=
  match (ag.replay_memory.getD i default).get ag.batch_size (oracle i) with
  | some (gs, ga, gr, gns, gab) => (writeBlock ag p.1 i gs ga gr gns gab, p.2 ++ [i])
  | none => (p.1, p.2 ++ [i])

/-- The batch-assembly loop of `fit`: fold `fillStep` over the buffer indices
`0 .. n-1`. -/
def fillFold (ag : SharedDDPG) (oracle : ℕ → ℕ → ℕ) (sc0 : Scratch)
    (c0 : List ℕ) (n : ℕ) : Scratch × List ℕ :=
  (List.range n).foldl (fillStep ag oracle) (sc0, c0)

/-- The transition that row `r` of the assembled batch holds: sampled from
the buffer of task `r / B` at the oracle index for in-block position
`r % B`. -/
def sampleOf (mems : List ReplayMemoryMulty) (B : ℕ) (oracle : ℕ → ℕ → ℕ)
    (r : ℕ) : Transition :=
  (mems.getD (r / B) default).sampleAt (oracle (r / B) (r % B))

/-- Result of a `fit` call: the new agent state, the list of buffers on which
`get` was invoked (in order), whether a task-id index error aborted the call,
and — when an update cycle executed — the target vector `q` handed to the
critic's fit. -/
structure FitResult where
  agent : SharedDDPG
  getCalls : List ℕ
  indexError : Bool
  criticTarget : Option (ℕ → ℚ)

/-- The gradient-update cycle of `fit` (the body of the `if fit_condition`
branch): sample a batch from every task buffer into the scratch blocks,
compute `q = reward + _next_q()`, fit critic and actor (external gradient
machinery, passed as weight transformations `cf`/`af`), increment
`_n_updates`, and soft-update the targets. -/
def updateCycle (ag0 : SharedDDPG) (oracle : ℕ → ℕ → ℕ)
    (cf af : List ℚ → List ℚ) (tActor : ActorOracle) (tCritic : CriticOracle) :
    FitResult :=
  let filled := fillFold ag0 oracle ag0.scratch [] ag0.replay_memory.length
  let ag1 := { ag0 with scratch := filled.1 }
  let q := fun r => ag1.scratch.reward r + ag1.next_q tActor tCritic r
  let ag2 := { ag1 with critic_weights := cf ag1.critic_weights,
                        actor_weights := af ag1.actor_weights,
                        n_updates := ag1.n_updates + 1 }
  ⟨ag2.update_target, filled.2, false, some q⟩

/-- `SharedDDPG.fit`: route the dataset's transitions to the task buffers by
the id read from `d[0][0]`, then — if every buffer is initialized — run one
gradient-update cycle.  A routing index error aborts the call (the Python
exception propagates), leaving the partially routed memories. -/
def SharedDDPG.fit (ag : SharedDDPG) (dataset : List Transition)
    (oracle : ℕ → ℕ → ℕ) (cf af : List ℚ → List ℚ) (tActor : ActorOracle)
    (tCritic : CriticOracle) : FitResult :=
  let ag0 := { ag with replay_memory := routedMems ag dataset }
  if routeErr ag dataset then ⟨ag0, [], true, none⟩
  else if fitCondition ag dataset then updateCycle ag0 oracle cf af tActor tCritic
  else ⟨ag0, [], false, none⟩

/-- Padding invariant on the scratch arrays (spec §3/§8): on every row, state
and next-state entries at columns at or beyond the row's task's
`n_input_per_mdp` width are zero, and action entries at or beyond the task's
`n_actions_per_head` width are zero (a row's task is its block index
`r / batch_size`, which is also the task id the assembly loop tags it with). -/
def Padded (ag : SharedDDPG) : Prop :=
  ∀ r c,
    (ag.n_input_per_mdp.getD (r / ag.batch_size) 0 ≤ c →
      ag.scratch.state r c = 0 ∧ ag.scratch.next_state r c = 0) ∧
    (ag.n_actions_per_head.getD (r / ag.batch_size) 0 ≤ c →
      ag.scratch.action r c = 0)

/-!
Runner loop (`examples/shared/ddpg/exp_shared_bullet.py`, `experiment`):
freeze/unfreeze scheduling and best-snapshot tracking.  The learning and
evaluation steps themselves are external; the per-epoch evaluation score sums
and the shared-weight bundles `agent.get_shared_weights()` would export are
supplied as oracles `scores` and `weightsAt`.
-/

/-- The runner arguments relevant to the freeze/unfreeze schedule and the
best-snapshot tracking: `--unfreeze-epoch` (an integer), whether
`--save-shared` was given a (truthy) filename, and the number of learning
epochs `max_steps // evaluation_frequency`. -/
structure RunnerArgs where
  unfreezeEpoch : ℤ
  saveShared : Bool
  nEpochs : ℕ
  deriving DecidableEq, Inhabited

/-- The chained comparison `n_epoch >= args.unfreeze_epoch > 0` guarding the
per-epoch `unfreeze_shared_weights()` call. -/
def unfreezeNow (args : RunnerArgs) (n : ℕ) : Bool :=
  decide (args.unfreezeEpoch ≤ (n : ℤ)) && decide (0 < args.unfreezeEpoch)

/-- `best_score_sum` starts at `-np.inf` (modelled as `none`); the comparison
`current_score_sum >= best_score_sum` is always true against it. -/
def bestLe : Option ℚ → ℚ → Bool
  | none, _ => true
  | some b, s => decide (b ≤ s)

/-- Runner-loop state observed by the claims: how many times
`freeze_shared_weights` was called, the epochs at which
`unfreeze_shared_weights` was called, and the best-snapshot tracking pair
`(best_score_sum, best_weights)`. -/
structure RunnerState where
  freezeCalls : ℕ
  unfreezeCallEpochs : List ℕ
  bestScoreSum : Option ℚ
  bestWeights : Option (List ℚ × List ℚ)
  deriving DecidableEq, Inhabited

/-- One epoch of the runner loop body: the unfreeze check, the (external)
learning and evaluation steps, then the best-snapshot update, which the code
guards by `args.save_shared and current_score_sum >= best_score_sum`. -/
def runnerStep (args : RunnerArgs) (scores : ℕ → ℚ)
    (weightsAt : ℕ → List ℚ × List ℚ) (st : RunnerState) (n : ℕ) :
    RunnerState :=
  let st1 := if unfreezeNow args n then
      { st with unfreezeCallEpochs := st.unfreezeCallEpochs ++ [n] }
    else st
  if args.saveShared && bestLe st1.bestScoreSum (scores n) then
    { st1 with bestScoreSum := some (scores n),
               bestWeights := some (weightsAt n) }
  else st1

/-- Outcome of a run: the final runner state and what `pickle.dump` persisted
at run end (`none` when `--save-shared` was not requested, otherwise the
stored `best_weights`, itself an option since it starts as `None`). -/
structure RunnerResult where
  final : RunnerState
  persisted : Option (Option (List ℚ × List ℚ))
  deriving DecidableEq, Inhabited

/-- The `experiment` run after the initial evaluation: freeze the shared
weights iff `args.unfreeze_epoch > 0`, loop the epochs `1 .. nEpochs`, then
persist the best bundle when `--save-shared` was requested. -/
def runner (args : RunnerArgs) (scores : ℕ → ℚ)
    (weightsAt : ℕ → List ℚ × List ℚ) : RunnerResult :=
  let st0 : RunnerState :=
    { freezeCalls := if 0 < args.unfreezeEpoch then 1 else 0,
      unfreezeCallEpochs := [],
      bestScoreSum := none,
      bestWeights := none }
  let stN := (List.range' 1 args.nEpochs).foldl
    (runnerStep args scores weightsAt) st0
  { final := stN,
    persisted := if args.saveShared then some stN.bestWeights else none }

/-!
Concrete instances used by the witness and counterexample theorems: a
two-task agent with batch size 1, replay threshold 1, and a small dataset
with one transition per task.
-/

/-- A task-0 transition: observation `[5]`, action `[7]`, reward `3`,
non-absorbing. -/
def tw0 : Transition := ⟨(0, [5]), [7], 3, (0, [6]), false, false⟩

/-- A task-1 transition: observation `[8]`, action `[9]`, reward `2`,
absorbing. -/
def tw1 : Transition := ⟨(1, [8]), [9], 2, (1, [4]), true, false⟩

/-- A transition tagged with the out-of-range task id `-1`. -/
def twNeg : Transition := ⟨(-1, [5]), [7], 3, (-1, [6]), false, false⟩

/-- A transition tagged with the out-of-range task id `2` (with two tasks). -/
def twBig : Transition := ⟨(2, [5]), [7], 3, (2, [6]), false, false⟩

/-- An empty replay buffer with threshold 1 and capacity 10. -/
def rmW : ReplayMemoryMulty := ⟨1, 10, []⟩

/-- A two-task agent: batch size 1, per-task widths 1, zeroed scratch. -/
def agW : SharedDDPG :=
  { batch_size := 1, n_input_per_mdp := [1, 1], n_actions_per_head := [1, 1],
    tau := 1/2, gamma := [1/2, 9/10], replay_memory := [rmW, rmW],
    n_updates := 0, scratch := Scratch.zeros,
    critic_weights := [1], target_critic_weights := [0],
    actor_weights := [2], target_actor_weights := [0],
    critic_network := ⟨[1, 2], [[3], [4]]⟩, actor_network := ⟨[5], [[6]]⟩ }

/-- A one-transition-per-task dataset for the witnesses. -/
def dsW : List Transition := [tw0, tw1]

/-- Sampling oracle that always picks index 0. -/
def orW : ℕ → ℕ → ℕ := fun _ _ => 0

/-- A constant target-actor oracle. -/
def taW : ActorOracle := fun _ _ _ _ => 0

/-- A constant target-critic oracle (nonzero, so that absorbing masking is
visible). -/
def tcW : CriticOracle := fun _ _ _ _ => 7

/-- Runner arguments for the C7 counterexample: unfreeze threshold 1, three
epochs, no shared-weight saving. -/
def argsC7 : RunnerArgs := ⟨1, false, 3⟩

/-- Runner arguments for the C8 counterexample: `--save-shared` not
requested, one epoch. -/
def argsC8 : RunnerArgs := ⟨0, false, 1⟩

/-- Runner arguments for the C8 amended-claim witness: `--save-shared`
requested, one epoch. -/
def argsC8w : RunnerArgs := ⟨0, true, 1⟩

/-- A constant exported-bundle oracle for the runner theorems. -/
def wAtW : ℕ → List ℚ × List ℚ := fun _ => ([1], [2])

theorem getD_set_self {α : Type} (l : List α) (i : ℕ) (a d : α) (h : i < l.length) :
    (l.set i a).getD i d = a := by
  rw [List.getD_eq_getElem?_getD, List.getElem?_set_self h, Option.getD_some]

theorem getD_set_ne {α : Type} (l : List α) {i j : ℕ} (a d : α) (h : i ≠ j) :
    (l.set i a).getD j d = l.getD j d := by
  rw [List.getD_eq_getElem?_getD, List.getElem?_set_ne h, ← List.getD_eq_getElem?_getD]

theorem mem_insertSorted (a b : ℤ) (l : List ℤ) :
    b ∈ insertSorted a l ↔ b = a ∨ b ∈ l := by
  induction l with
  | nil => simp [insertSorted]
  | cons c l ih =>
    simp only [insertSorted]
    split
    · simp
    · simp only [List.mem_cons, ih]
      tauto

theorem mem_sortInts (a : ℤ) (l : List ℤ) : a ∈ sortInts l ↔ a ∈ l := by
  induction l with
  | nil => simp [sortInts]
  | cons b l ih =>
    simp only [sortInts, List.foldr_cons, List.mem_cons]
    rw [mem_insertSorted]
    simp only [sortInts] at ih
    rw [ih]

theorem mem_uniqueSorted (a : ℤ) (l : List ℤ) : a ∈ uniqueSorted l ↔ a ∈ l := by
  rw [uniqueSorted, List.mem_dedup, mem_sortInts]

theorem nodup_uniqueSorted (l : List ℤ) : (uniqueSorted l).Nodup :=
  List.nodup_dedup _

theorem pyIdx_valid (n : ℕ) (g : ℤ) (h0 : 0 ≤ g) (h1 : g < (n : ℤ)) :
    pyIdx n g = some g.toNat := by
  unfold pyIdx
  have hng : ¬ g < 0 := not_lt.mpr h0
  simp [hng, h0, h1]

theorem pyIdx_none_iff (n : ℕ) (g : ℤ) :
    pyIdx n g = none ↔ g < -(n : ℤ) ∨ (n : ℤ) ≤ g := by
  unfold pyIdx
  by_cases hg : g < 0 <;> simp [hg] <;> omega

theorem routeGames_length (ds : List Transition) (gs : List ℤ)
    (ms : List ReplayMemoryMulty) :
    (routeGames ds gs ms).1.length = ms.length := by
  induction gs generalizing ms with
  | nil => rfl
  | cons g gs ih =>
    simp only [routeGames]
    cases h : pyIdx ms.length g with
    | some j => rw [ih]; exact List.length_set ..
    | none => rfl

theorem routeGames_err_iff (ds : List Transition) (gs : List ℤ)
    (ms : List ReplayMemoryMulty) :
    (routeGames ds gs ms).2 = true ↔ ∃ g ∈ gs, pyIdx ms.length g = none := by
  induction gs generalizing ms with
  | nil => simp [routeGames]
  | cons g gs ih =>
    simp only [routeGames]
    cases h : pyIdx ms.length g with
    | some j =>
      rw [ih]
      simp only [List.length_set, List.mem_cons]
      constructor
      · rintro ⟨x, hx, hpy⟩
        exact ⟨x, Or.inr hx, hpy⟩
      · rintro ⟨x, hx | hx, hpy⟩
        · rw [hx] at hpy
          rw [h] at hpy
          exact absurd hpy (by simp)
        · exact ⟨x, hx, hpy⟩
    | none =>
      simp only [true_iff]
      exact ⟨g, List.mem_cons_self .., h⟩

theorem routeGames_valid_spec (ds : List Transition) (gs : List ℤ)
    (ms : List ReplayMemoryMulty) (hnd : gs.Nodup)
    (hv : ∀ g ∈ gs, 0 ≤ g ∧ g < (ms.length : ℤ)) :
    (routeGames ds gs ms).2 = false ∧
    ∀ j, j < ms.length →
      (routeGames ds gs ms).1.getD j default =
        (if (j : ℤ) ∈ gs then
          (ms.getD j default).add (ds.filter fun t => decide (t.state.1 = (j : ℤ)))
        else ms.getD j default) := by
  induction gs generalizing ms with
  | nil => simp [routeGames]
  | cons g gs ih =>
    obtain ⟨hg0, hg1⟩ := hv g (List.mem_cons_self ..)
    have hpy : pyIdx ms.length g = some g.toNat := pyIdx_valid _ _ hg0 hg1
    simp only [routeGames, hpy]
    obtain ⟨hgnotin, hnd2⟩ := List.nodup_cons.mp hnd
    have hlen : (ms.set g.toNat ((ms.getD g.toNat default).add
        (ds.filter fun t => decide (t.state.1 = g)))).length = ms.length :=
      List.length_set ..
    have ihres := ih _ hnd2 (fun x hx => by
      rw [hlen]; exact hv x (List.mem_cons_of_mem _ hx))
    refine ⟨ihres.1, ?_⟩
    intro j hj
    rw [ihres.2 j (by rw [hlen]; exact hj)]
    by_cases hjg : (j : ℤ) = g
    · have hjn : g.toNat = j := by omega
      have hnotin : (j : ℤ) ∉ gs := by rw [hjg]; exact hgnotin
      subst hjn
      rw [if_neg hnotin, getD_set_self _ _ _ _ (by omega), if_pos (by simp [hjg]),
        Int.toNat_of_nonneg hg0]
    · have hjn : g.toNat ≠ j := by omega
      rw [getD_set_ne _ _ _ hjn]
      by_cases hmem : (j : ℤ) ∈ gs
      · rw [if_pos hmem, if_pos (by simp [hmem])]
      · rw [if_neg hmem, if_neg (by simp [hjg, hmem])]

theorem routedMems_spec (ag : SharedDDPG) (dataset : List Transition)
    (hvalid : ∀ t ∈ dataset,
      0 ≤ t.state.1 ∧ t.state.1 < (ag.replay_memory.length : ℤ)) :
    routeErr ag dataset = false ∧
    (routedMems ag dataset).length = ag.replay_memory.length ∧
    ∀ j, j < ag.replay_memory.length →
      (routedMems ag dataset).getD j default =
        (if (j : ℤ) ∈ dataset.map (fun t => t.state.1) then
          (ag.replay_memory.getD j default).add
            (dataset.filter fun t => decide (t.state.1 = (j : ℤ)))
        else ag.replay_memory.getD j default) := by
  have hnd := nodup_uniqueSorted (dataset.map fun t => t.state.1)
  have hv : ∀ g ∈ uniqueSorted (dataset.map fun t => t.state.1),
      0 ≤ g ∧ g < (ag.replay_memory.length : ℤ) := by
    intro g hg
    rw [mem_uniqueSorted] at hg
    obtain ⟨t, ht, rfl⟩ := List.mem_map.mp hg
    exact hvalid t ht
  have h := routeGames_valid_spec dataset _ ag.replay_memory hnd hv
  refine ⟨h.1, routeGames_length .., ?_⟩
  intro j hj
  rw [routedMems, h.2 j hj]
  simp only [mem_uniqueSorted]

theorem getD_map_range {α : Type} (f : ℕ → α) {n k : ℕ} (d : α) (h : k < n) :
    ((List.range n).map f).getD k d = f k := by
  have hlen : k < ((List.range n).map f).length := by simpa using h
  rw [List.getD_eq_getElem _ d hlen, List.getElem_map, List.getElem_range]

theorem writeBlock_state_idxs (ag : SharedDDPG) (sc : Scratch) (i : ℕ)
    (gs ga : List (List ℚ)) (gr : List ℚ) (gns : List (List ℚ)) (gab : List Bool) (r : ℕ) :
    (writeBlock ag sc i gs ga gr gns gab).state_idxs r =
      (if ag.batch_size * i ≤ r ∧ r < ag.batch_size * i + ag.batch_size then i
       else sc.state_idxs r) := rfl

theorem writeBlock_next_state_idxs (ag : SharedDDPG) (sc : Scratch) (i : ℕ)
    (gs ga : List (List ℚ)) (gr : List ℚ) (gns : List (List ℚ)) (gab : List Bool) (r : ℕ) :
    (writeBlock ag sc i gs ga gr gns gab).next_state_idxs r =
      (if ag.batch_size * i ≤ r ∧ r < ag.batch_size * i + ag.batch_size then i
       else sc.next_state_idxs r) := rfl

theorem writeBlock_reward (ag : SharedDDPG) (sc : Scratch) (i : ℕ)
    (gs ga : List (List ℚ)) (gr : List ℚ) (gns : List (List ℚ)) (gab : List Bool) (r : ℕ) :
    (writeBlock ag sc i gs ga gr gns gab).reward r =
      (if ag.batch_size * i ≤ r ∧ r < ag.batch_size * i + ag.batch_size then
        gr.getD (r - ag.batch_size * i) 0
       else sc.reward r) := rfl

theorem writeBlock_absorbing (ag : SharedDDPG) (sc : Scratch) (i : ℕ)
    (gs ga : List (List ℚ)) (gr : List ℚ) (gns : List (List ℚ)) (gab : List Bool) (r : ℕ) :
    (writeBlock ag sc i gs ga gr gns gab).absorbing r =
      (if ag.batch_size * i ≤ r ∧ r < ag.batch_size * i + ag.batch_size then
        (if gab.getD (r - ag.batch_size * i) false then 1 else 0)
       else sc.absorbing r) := rfl

theorem writeBlock_state (ag : SharedDDPG) (sc : Scratch) (i : ℕ)
    (gs ga : List (List ℚ)) (gr : List ℚ) (gns : List (List ℚ)) (gab : List Bool) (r c : ℕ) :
    (writeBlock ag sc i gs ga gr gns gab).state r c =
      (if ag.batch_size * i ≤ r ∧ r < ag.batch_size * i + ag.batch_size ∧
          c < ag.n_input_per_mdp.getD i 0 then
        (gs.getD (r - ag.batch_size * i) []).getD c 0
       else sc.state r c) := rfl

theorem writeBlock_action (ag : SharedDDPG) (sc : Scratch) (i : ℕ)
    (gs ga : List (List ℚ)) (gr : List ℚ) (gns : List (List ℚ)) (gab : List Bool) (r c : ℕ) :
    (writeBlock ag sc i gs ga gr gns gab).action r c =
      (if ag.batch_size * i ≤ r ∧ r < ag.batch_size * i + ag.batch_size ∧
          c < ag.n_actions_per_head.getD i 0 then
        (ga.getD (r - ag.batch_size * i) []).getD c 0
       else sc.action r c) := rfl

theorem writeBlock_next_state (ag : SharedDDPG) (sc : Scratch) (i : ℕ)
    (gs ga : List (List ℚ)) (gr : List ℚ) (gns : List (List ℚ)) (gab : List Bool) (r c : ℕ) :
    (writeBlock ag sc i gs ga gr gns gab).next_state r c =
      (if ag.batch_size * i ≤ r ∧ r < ag.batch_size * i + ag.batch_size ∧
          c < ag.n_input_per_mdp.getD i 0 then
        (gns.getD (r - ag.batch_size * i) []).getD c 0
       else sc.next_state r c) := rfl

theorem fillStep_initialized (ag : SharedDDPG) (oracle : ℕ → ℕ → ℕ)
    (p : Scratch × List ℕ) (i : ℕ)
    (h : (ag.replay_memory.getD i default).initialized = true) :
    fillStep ag oracle p i =
      (writeBlock ag p.1 i
        ((List.range ag.batch_size).map fun k =>
          ((ag.replay_memory.getD i default).sampleAt (oracle i k)).state.2)
        ((List.range ag.batch_size).map fun k =>
          ((ag.replay_memory.getD i default).sampleAt (oracle i k)).action)
        ((List.range ag.batch_size).map fun k =>
          ((ag.replay_memory.getD i default).sampleAt (oracle i k)).reward)
        ((List.range ag.batch_size).map fun k =>
          ((ag.replay_memory.getD i default).sampleAt (oracle i k)).next_state.2)
        ((List.range ag.batch_size).map fun k =>
          ((ag.replay_memory.getD i default).sampleAt (oracle i k)).absorbing),
       p.2 ++ [i]) := by
  unfold fillStep ReplayMemoryMulty.get
  rw [if_pos h]

theorem fillStep_calls (ag : SharedDDPG) (oracle : ℕ → ℕ → ℕ)
    (p : Scratch × List ℕ) (i : ℕ) :
    (fillStep ag oracle p i).2 = p.2 ++ [i] := by
  unfold fillStep
  rcases hget : (ag.replay_memory.getD i default).get ag.batch_size (oracle i) with
    _ | ⟨gs, ga, gr, gns, gab⟩ <;> simp [hget]

theorem fill_char (ag : SharedDDPG) (oracle : ℕ → ℕ → ℕ) (sc0 : Scratch)
    (c0 : List ℕ) (hB : 0 < ag.batch_size) :
    ∀ n, (∀ i, i < n → (ag.replay_memory.getD i default).initialized = true) →
    (fillFold ag oracle sc0 c0 n).2 = c0 ++ List.range n ∧
    (∀ r, ag.batch_size * n ≤ r →
      (fillFold ag oracle sc0 c0 n).1.state_idxs r = sc0.state_idxs r ∧
      (fillFold ag oracle sc0 c0 n).1.next_state_idxs r = sc0.next_state_idxs r ∧
      (fillFold ag oracle sc0 c0 n).1.reward r = sc0.reward r ∧
      (fillFold ag oracle sc0 c0 n).1.absorbing r = sc0.absorbing r ∧
      (∀ c, (fillFold ag oracle sc0 c0 n).1.state r c = sc0.state r c) ∧
      (∀ c, (fillFold ag oracle sc0 c0 n).1.action r c = sc0.action r c) ∧
      (∀ c, (fillFold ag oracle sc0 c0 n).1.next_state r c = sc0.next_state r c)) ∧
    (∀ r, r < ag.batch_size * n →
      (fillFold ag oracle sc0 c0 n).1.state_idxs r = r / ag.batch_size ∧
      (fillFold ag oracle sc0 c0 n).1.next_state_idxs r = r / ag.batch_size ∧
      (fillFold ag oracle sc0 c0 n).1.reward r = (sampleOf ag.replay_memory ag.batch_size oracle r).reward ∧
      (fillFold ag oracle sc0 c0 n).1.absorbing r =
        (if (sampleOf ag.replay_memory ag.batch_size oracle r).absorbing then 1 else 0) ∧
      (∀ c, c < ag.n_input_per_mdp.getD (r / ag.batch_size) 0 →
        (fillFold ag oracle sc0 c0 n).1.state r c =
          (sampleOf ag.replay_memory ag.batch_size oracle r).state.2.getD c 0) ∧
      (∀ c, ag.n_input_per_mdp.getD (r / ag.batch_size) 0 ≤ c →
        (fillFold ag oracle sc0 c0 n).1.state r c = sc0.state r c) ∧
      (∀ c, c < ag.n_actions_per_head.getD (r / ag.batch_size) 0 →
        (fillFold ag oracle sc0 c0 n).1.action r c =
          (sampleOf ag.replay_memory ag.batch_size oracle r).action.getD c 0) ∧
      (∀ c, ag.n_actions_per_head.getD (r / ag.batch_size) 0 ≤ c →
        (fillFold ag oracle sc0 c0 n).1.action r c = sc0.action r c) ∧
      (∀ c, c < ag.n_input_per_mdp.getD (r / ag.batch_size) 0 →
        (fillFold ag oracle sc0 c0 n).1.next_state r c =
          (sampleOf ag.replay_memory ag.batch_size oracle r).next_state.2.getD c 0) ∧
      (∀ c, ag.n_input_per_mdp.getD (r / ag.batch_size) 0 ≤ c →
        (fillFold ag oracle sc0 c0 n).1.next_state r c = sc0.next_state r c)) := by
  intro n
  induction n with
  | zero =>
    intro _
    refine ⟨by simp [fillFold], ?_, ?_⟩
    · intro r _
      exact ⟨rfl, rfl, rfl, rfl, fun _ => rfl, fun _ => rfl, fun _ => rfl⟩
    · intro r hr
      exact absurd hr (by omega)
  | succ n ih =>
    intro hinit
    obtain ⟨ihc, ihu, ihv⟩ := ih (fun i hi => hinit i (by omega))
    have hstep : fillFold ag oracle sc0 c0 (n + 1)
        = fillStep ag oracle (fillFold ag oracle sc0 c0 n) n := by
      simp [fillFold, List.range_succ]
    rw [hstep, fillStep_initialized ag oracle _ n (hinit n (by omega))]
    have hmulsucc : ag.batch_size * (n + 1) = ag.batch_size * n + ag.batch_size :=
      Nat.mul_succ ..
    refine ⟨?_, ?_, ?_⟩
    · simp only [ihc, List.range_succ, List.append_assoc]
    · -- rows at or beyond the new block are untouched
      intro r hr
      have hcond : ¬ (ag.batch_size * n ≤ r ∧ r < ag.batch_size * n + ag.batch_size) := by
        omega
      have hge : ag.batch_size * n ≤ r := by omega
      obtain ⟨hu1, hu2, hu3, hu4, hu5, hu6, hu7⟩ := ihu r hge
      refine ⟨?_, ?_, ?_, ?_, ?_, ?_, ?_⟩
      · rw [writeBlock_state_idxs, if_neg hcond]; exact hu1
      · rw [writeBlock_next_state_idxs, if_neg hcond]; exact hu2
      · rw [writeBlock_reward, if_neg hcond]; exact hu3
      · rw [writeBlock_absorbing, if_neg hcond]; exact hu4
      · intro c
        rw [writeBlock_state, if_neg (by omega)]; exact hu5 c
      · intro c
        rw [writeBlock_action, if_neg (by omega)]; exact hu6 c
      · intro c
        rw [writeBlock_next_state, if_neg (by omega)]; exact hu7 c
    · -- covered rows
      intro r hr
      by_cases hrn : r < ag.batch_size * n
      · -- earlier blocks: untouched by the last write, the level-n facts apply
        have hcond : ¬ (ag.batch_size * n ≤ r ∧ r < ag.batch_size * n + ag.batch_size) := by
          omega
        obtain ⟨hv1, hv2, hv3, hv4, hv5, hv6, hv7, hv8, hv9, hv10⟩ := ihv r hrn
        refine ⟨?_, ?_, ?_, ?_, ?_, ?_, ?_, ?_, ?_, ?_⟩
        · rw [writeBlock_state_idxs, if_neg hcond]; exact hv1
        · rw [writeBlock_next_state_idxs, if_neg hcond]; exact hv2
        · rw [writeBlock_reward, if_neg hcond]; exact hv3
        · rw [writeBlock_absorbing, if_neg hcond]; exact hv4
        · intro c hc
          rw [writeBlock_state, if_neg (by omega)]; exact hv5 c hc
        · intro c hc
          rw [writeBlock_state, if_neg (by omega)]; exact hv6 c hc
        · intro c hc
          rw [writeBlock_action, if_neg (by omega)]; exact hv7 c hc
        · intro c hc
          rw [writeBlock_action, if_neg (by omega)]; exact hv8 c hc
        · intro c hc
          rw [writeBlock_next_state, if_neg (by omega)]; exact hv9 c hc
        · intro c hc
          rw [writeBlock_next_state, if_neg (by omega)]; exact hv10 c hc
      · -- the freshly written block
        have hge : ag.batch_size * n ≤ r := by omega
        have hlt : r < ag.batch_size * n + ag.batch_size := by omega
        have hcond : ag.batch_size * n ≤ r ∧ r < ag.batch_size * n + ag.batch_size :=
          ⟨hge, hlt⟩
        have e1 : n * ag.batch_size = ag.batch_size * n := Nat.mul_comm ..
        have e2 : (n + 1) * ag.batch_size = ag.batch_size * n + ag.batch_size := by ring
        have hdiv : r / ag.batch_size = n := by
          apply Nat.div_eq_of_lt_le <;> omega
        have hmod : r - ag.batch_size * n = r % ag.batch_size := by
          have h3 := Nat.div_add_mod r ag.batch_size
          rw [hdiv] at h3
          omega
        have hidx : r - ag.batch_size * n < ag.batch_size := by omega
        have hsample : (ag.replay_memory.getD n default).sampleAt
            (oracle n (r - ag.batch_size * n))
            = sampleOf ag.replay_memory ag.batch_size oracle r := by
          rw [sampleOf, hdiv, ← hmod]
        refine ⟨?_, ?_, ?_, ?_, ?_, ?_, ?_, ?_, ?_, ?_⟩
        · rw [writeBlock_state_idxs, if_pos hcond, hdiv]
        · rw [writeBlock_next_state_idxs, if_pos hcond, hdiv]
        · rw [writeBlock_reward, if_pos hcond, getD_map_range _ _ hidx, hsample]
        · rw [writeBlock_absorbing, if_pos hcond, getD_map_range _ _ hidx, hsample]
        · intro c hc
          rw [hdiv] at hc
          rw [writeBlock_state, if_pos ⟨hge, hlt, hc⟩, getD_map_range _ _ hidx, hsample]
        · intro c hc
          rw [hdiv] at hc
          rw [writeBlock_state, if_neg (by omega)]
          obtain ⟨_, _, _, _, hu5, _, _⟩ := ihu r hge
          exact hu5 c
        · intro c hc
          rw [hdiv] at hc
          rw [writeBlock_action, if_pos ⟨hge, hlt, hc⟩, getD_map_range _ _ hidx, hsample]
        · intro c hc
          rw [hdiv] at hc
          rw [writeBlock_action, if_neg (by omega)]
          obtain ⟨_, _, _, _, _, hu6, _⟩ := ihu r hge
          exact hu6 c
        · intro c hc
          rw [hdiv] at hc
          rw [writeBlock_next_state, if_pos ⟨hge, hlt, hc⟩, getD_map_range _ _ hidx, hsample]
        · intro c hc
          rw [hdiv] at hc
          rw [writeBlock_next_state, if_neg (by omega)]
          obtain ⟨_, _, _, _, _, _, hu7⟩ := ihu r hge
          exact hu7 c

theorem next_q_eq (ag : SharedDDPG) (tActor : ActorOracle) (tCritic : CriticOracle)
    (hB : 0 < ag.batch_size) (r : ℕ) :
    ag.next_q tActor tCritic r =
      tCritic ag.scratch.next_state
        (tActor ag.scratch.next_state ag.scratch.next_state_idxs)
        ag.scratch.next_state_idxs r
        * ag.gamma.getD (r / ag.batch_size) 0 * (1 - ag.scratch.absorbing r) := by
  unfold SharedDDPG.next_q
  simp only []
  by_cases h : ((List.range ag.batch_size).any
      (fun k => ag.scratch.absorbing (ag.batch_size * (r / ag.batch_size) + k) != 0)) = true
  · rw [if_pos h]
  · have hany : ((List.range ag.batch_size).any
        (fun k => ag.scratch.absorbing (ag.batch_size * (r / ag.batch_size) + k) != 0)) = false :=
      Bool.not_eq_true _ |>.mp h
    rw [List.any_eq_false] at hany
    have hmem : r % ag.batch_size ∈ List.range ag.batch_size :=
      List.mem_range.mpr (Nat.mod_lt _ hB)
    have habs0 := hany _ hmem
    have habs : ag.scratch.absorbing r = 0 := by
      rw [Nat.div_add_mod r ag.batch_size] at habs0
      simpa using habs0
    rw [if_neg h, habs]
    ring

theorem fit_err_eq (ag : SharedDDPG) (dataset : List Transition)
    (oracle : ℕ → ℕ → ℕ) (cf af : List ℚ → List ℚ) (tActor : ActorOracle)
    (tCritic : CriticOracle) (herr : routeErr ag dataset = true) :
    SharedDDPG.fit ag dataset oracle cf af tActor tCritic =
      ⟨{ ag with replay_memory := routedMems ag dataset }, [], true, none⟩ := by
  unfold SharedDDPG.fit
  simp [herr]

theorem fit_cond_eq (ag : SharedDDPG) (dataset : List Transition)
    (oracle : ℕ → ℕ → ℕ) (cf af : List ℚ → List ℚ) (tActor : ActorOracle)
    (tCritic : CriticOracle) (herr : routeErr ag dataset = false)
    (hcond : fitCondition ag dataset = true) :
    SharedDDPG.fit ag dataset oracle cf af tActor tCritic =
      updateCycle { ag with replay_memory := routedMems ag dataset }
        oracle cf af tActor tCritic := by
  unfold SharedDDPG.fit
  simp [herr, hcond]

theorem fit_nocond_eq (ag : SharedDDPG) (dataset : List Transition)
    (oracle : ℕ → ℕ → ℕ) (cf af : List ℚ → List ℚ) (tActor : ActorOracle)
    (tCritic : CriticOracle) (herr : routeErr ag dataset = false)
    (hcond : fitCondition ag dataset = false) :
    SharedDDPG.fit ag dataset oracle cf af tActor tCritic =
      ⟨{ ag with replay_memory := routedMems ag dataset }, [], false, none⟩ := by
  unfold SharedDDPG.fit
  simp [herr, hcond]

theorem updateCycle_agent_scratch (ag0 : SharedDDPG) (oracle : ℕ → ℕ → ℕ)
    (cf af : List ℚ → List ℚ) (tActor : ActorOracle) (tCritic : CriticOracle) :
    (updateCycle ag0 oracle cf af tActor tCritic).agent.scratch =
      (fillFold ag0 oracle ag0.scratch [] ag0.replay_memory.length).1 := rfl

theorem updateCycle_agent_replay (ag0 : SharedDDPG) (oracle : ℕ → ℕ → ℕ)
    (cf af : List ℚ → List ℚ) (tActor : ActorOracle) (tCritic : CriticOracle) :
    (updateCycle ag0 oracle cf af tActor tCritic).agent.replay_memory =
      ag0.replay_memory := rfl

theorem updateCycle_agent_n_updates (ag0 : SharedDDPG) (oracle : ℕ → ℕ → ℕ)
    (cf af : List ℚ → List ℚ) (tActor : ActorOracle) (tCritic : CriticOracle) :
    (updateCycle ag0 oracle cf af tActor tCritic).agent.n_updates =
      ag0.n_updates + 1 := rfl

theorem updateCycle_agent_batch_size (ag0 : SharedDDPG) (oracle : ℕ → ℕ → ℕ)
    (cf af : List ℚ → List ℚ) (tActor : ActorOracle) (tCritic : CriticOracle) :
    (updateCycle ag0 oracle cf af tActor tCritic).agent.batch_size =
      ag0.batch_size := rfl

theorem updateCycle_agent_gamma (ag0 : SharedDDPG) (oracle : ℕ → ℕ → ℕ)
    (cf af : List ℚ → List ℚ) (tActor : ActorOracle) (tCritic : CriticOracle) :
    (updateCycle ag0 oracle cf af tActor tCritic).agent.gamma = ag0.gamma := rfl

theorem updateCycle_agent_n_input (ag0 : SharedDDPG) (oracle : ℕ → ℕ → ℕ)
    (cf af : List ℚ → List ℚ) (tActor : ActorOracle) (tCritic : CriticOracle) :
    (updateCycle ag0 oracle cf af tActor tCritic).agent.n_input_per_mdp =
      ag0.n_input_per_mdp := rfl

theorem updateCycle_agent_n_actions (ag0 : SharedDDPG) (oracle : ℕ → ℕ → ℕ)
    (cf af : List ℚ → List ℚ) (tActor : ActorOracle) (tCritic : CriticOracle) :
    (updateCycle ag0 oracle cf af tActor tCritic).agent.n_actions_per_head =
      ag0.n_actions_per_head := rfl

theorem updateCycle_getCalls (ag0 : SharedDDPG) (oracle : ℕ → ℕ → ℕ)
    (cf af : List ℚ → List ℚ) (tActor : ActorOracle) (tCritic : CriticOracle) :
    (updateCycle ag0 oracle cf af tActor tCritic).getCalls =
      (fillFold ag0 oracle ag0.scratch [] ag0.replay_memory.length).2 := rfl

theorem updateCycle_criticTarget (ag0 : SharedDDPG) (oracle : ℕ → ℕ → ℕ)
    (cf af : List ℚ → List ℚ) (tActor : ActorOracle) (tCritic : CriticOracle) :
    (updateCycle ag0 oracle cf af tActor tCritic).criticTarget =
      some (fun r =>
        (updateCycle ag0 oracle cf af tActor tCritic).agent.scratch.reward r +
        (updateCycle ag0 oracle cf af tActor tCritic).agent.next_q tActor tCritic r) := rfl

theorem softUpdate_getD (tau : ℚ) (live target : List ℚ) (k : ℕ)
    (h1 : k < live.length) (h2 : k < target.length) :
    (softUpdate tau live target).getD k 0 =
      tau * live.getD k 0 + (1 - tau) * target.getD k 0 := by
  induction live generalizing target k with
  | nil => simp at h1
  | cons a l ih =>
    cases target with
    | nil => simp at h2
    | cons b t =>
      cases k with
      | zero => simp [softUpdate]
      | succ k =>
        have := ih t k (by simpa using h1) (by simpa using h2)
        simpa [softUpdate] using this

theorem softUpdate_one (live target : List ℚ) (h : target.length = live.length) :
    softUpdate 1 live target = live := by
  induction live generalizing target with
  | nil => simp [softUpdate]
  | cons a l ih =>
    cases target with
    | nil => simp at h
    | cons b t =>
      have ht := ih t (by simpa using h)
      simp only [softUpdate, List.zipWith_cons_cons] at ht ⊢
      rw [ht]
      norm_num

theorem softUpdate_zero (live target : List ℚ) (h : target.length = live.length) :
    softUpdate 0 live target = target := by
  induction live generalizing target with
  | nil => cases target with
    | nil => simp [softUpdate]
    | cons b t => simp at h
  | cons a l ih =>
    cases target with
    | nil => simp at h
    | cons b t =>
      have ht := ih t (by simpa using h)
      simp only [softUpdate, List.zipWith_cons_cons] at ht ⊢
      rw [ht]
      norm_num

theorem runnerStep_unfreeze (args : RunnerArgs) (scores : ℕ → ℚ)
    (wAt : ℕ → List ℚ × List ℚ) (st : RunnerState) (n : ℕ) :
    (runnerStep args scores wAt st n).unfreezeCallEpochs =
      st.unfreezeCallEpochs ++ (if unfreezeNow args n then [n] else []) := by
  unfold runnerStep
  by_cases h1 : unfreezeNow args n = true
  · rw [if_pos h1]
    dsimp only
    split <;> rfl
  · rw [if_neg h1]
    dsimp only
    split <;> simp

theorem runnerStep_freeze (args : RunnerArgs) (scores : ℕ → ℚ)
    (wAt : ℕ → List ℚ × List ℚ) (st : RunnerState) (n : ℕ) :
    (runnerStep args scores wAt st n).freezeCalls = st.freezeCalls := by
  unfold runnerStep
  by_cases h1 : unfreezeNow args n = true
  · rw [if_pos h1]
    dsimp only
    split <;> rfl
  · rw [if_neg h1]
    dsimp only
    split <;> rfl

theorem foldl_runnerStep_unfreeze (args : RunnerArgs) (scores : ℕ → ℚ)
    (wAt : ℕ → List ℚ × List ℚ) (l : List ℕ) (st : RunnerState) :
    (l.foldl (runnerStep args scores wAt) st).unfreezeCallEpochs =
      st.unfreezeCallEpochs ++ l.filter (unfreezeNow args) := by
  induction l generalizing st with
  | nil => simp
  | cons n l ih =>
    simp only [List.foldl_cons, List.filter_cons]
    rw [ih, runnerStep_unfreeze]
    by_cases h : unfreezeNow args n = true <;> simp [h]

theorem foldl_runnerStep_freeze (args : RunnerArgs) (scores : ℕ → ℚ)
    (wAt : ℕ → List ℚ × List ℚ) (l : List ℕ) (st : RunnerState) :
    (l.foldl (runnerStep args scores wAt) st).freezeCalls = st.freezeCalls := by
  induction l generalizing st with
  | nil => rfl
  | cons n l ih =>
    simp only [List.foldl_cons]
    rw [ih, runnerStep_freeze]

theorem fillFold_calls (ag : SharedDDPG) (oracle : ℕ → ℕ → ℕ) (sc0 : Scratch)
    (c0 : List ℕ) : ∀ n, (fillFold ag oracle sc0 c0 n).2 = c0 ++ List.range n := by
  intro n
  induction n with
  | zero => simp [fillFold]
  | succ n ih =>
    have hstep : fillFold ag oracle sc0 c0 (n + 1)
        = fillStep ag oracle (fillFold ag oracle sc0 c0 n) n := by
      simp [fillFold, List.range_succ]
    rw [hstep, fillStep_calls, ih]
    simp [List.range_succ]

theorem fit_indexError_eq (ag : SharedDDPG) (dataset : List Transition)
    (oracle : ℕ → ℕ → ℕ) (cf af : List ℚ → List ℚ) (tActor : ActorOracle)
    (tCritic : CriticOracle) :
    (SharedDDPG.fit ag dataset oracle cf af tActor tCritic).indexError =
      routeErr ag dataset := by
  by_cases h1 : routeErr ag dataset = true
  · rw [fit_err_eq ag dataset oracle cf af tActor tCritic h1, h1]
  · have h1f : routeErr ag dataset = false := Bool.not_eq_true _ |>.mp h1
    by_cases h2 : fitCondition ag dataset = true
    · rw [fit_cond_eq ag dataset oracle cf af tActor tCritic h1f h2, h1f]
      rfl
    · have h2f : fitCondition ag dataset = false := Bool.not_eq_true _ |>.mp h2
      rw [fit_nocond_eq ag dataset oracle cf af tActor tCritic h1f h2f, h1f]

theorem fit_agent_replay_eq (ag : SharedDDPG) (dataset : List Transition)
    (oracle : ℕ → ℕ → ℕ) (cf af : List ℚ → List ℚ) (tActor : ActorOracle)
    (tCritic : CriticOracle) :
    (SharedDDPG.fit ag dataset oracle cf af tActor tCritic).agent.replay_memory =
      routedMems ag dataset := by
  by_cases h1 : routeErr ag dataset = true
  · rw [fit_err_eq ag dataset oracle cf af tActor tCritic h1]
  · have h1f : routeErr ag dataset = false := Bool.not_eq_true _ |>.mp h1
    by_cases h2 : fitCondition ag dataset = true
    · rw [fit_cond_eq ag dataset oracle cf af tActor tCritic h1f h2,
        updateCycle_agent_replay]
    · have h2f : fitCondition ag dataset = false := Bool.not_eq_true _ |>.mp h2
      rw [fit_nocond_eq ag dataset oracle cf af tActor tCritic h1f h2f]

theorem getD_mem {α : Type} (l : List α) (i : ℕ) (d : α) (h : i < l.length) :
    l.getD i d ∈ l := by
  rw [List.getD_eq_getElem l d h]
  exact List.getElem_mem h

theorem fitCondition_initialized (ag : SharedDDPG) (dataset : List Transition)
    (hcond : fitCondition ag dataset = true) :
    ∀ i, i < (routedMems ag dataset).length →
      ((routedMems ag dataset).getD i default).initialized = true := by
  intro i hi
  have h := List.all_eq_true.mp hcond
  exact h _ (getD_mem _ i default hi)

/-- C3: every soft-update step sets each target-critic and target-actor
parameter to `tau * live + (1 - tau) * old_target`; with `tau = 1` one update
makes the targets exactly equal the live weights, with `tau = 0` they are
unchanged. -/
theorem C3_soft_update_formula (ag : SharedDDPG)
    (hc : ag.target_critic_weights.length = ag.critic_weights.length)
    (ha : ag.target_actor_weights.length = ag.actor_weights.length) :
    (∀ k, k < ag.critic_weights.length →
      ag.update_target.target_critic_weights.getD k 0 =
        ag.tau * ag.critic_weights.getD k 0 +
          (1 - ag.tau) * ag.target_critic_weights.getD k 0) ∧
    (∀ k, k < ag.actor_weights.length →
      ag.update_target.target_actor_weights.getD k 0 =
        ag.tau * ag.actor_weights.getD k 0 +
          (1 - ag.tau) * ag.target_actor_weights.getD k 0) ∧
    (ag.tau = 1 →
      ag.update_target.target_critic_weights = ag.critic_weights ∧
      ag.update_target.target_actor_weights = ag.actor_weights) ∧
    (ag.tau = 0 →
      ag.update_target.target_critic_weights = ag.target_critic_weights ∧
      ag.update_target.target_actor_weights = ag.target_actor_weights) := by
  refine ⟨?_, ?_, ?_, ?_⟩
  · intro k hk
    exact softUpdate_getD _ _ _ k hk (by omega)
  · intro k hk
    exact softUpdate_getD _ _ _ k hk (by omega)
  · intro ht
    constructor
    · show softUpdate ag.tau ag.critic_weights ag.target_critic_weights = _
      rw [ht]
      exact softUpdate_one _ _ hc
    · show softUpdate ag.tau ag.actor_weights ag.target_actor_weights = _
      rw [ht]
      exact softUpdate_one _ _ ha
  · intro ht
    constructor
    · show softUpdate ag.tau ag.critic_weights ag.target_critic_weights = _
      rw [ht]
      exact softUpdate_zero _ _ hc
    · show softUpdate ag.tau ag.actor_weights ag.target_actor_weights = _
      rw [ht]
      exact softUpdate_zero _ _ ha

/-- Witness for C3 at the concrete agent `agW`. -/
theorem C3_witness :
    agW.target_critic_weights.length = agW.critic_weights.length ∧
    agW.update_target.target_critic_weights.getD 0 0 =
      agW.tau * agW.critic_weights.getD 0 0 +
        (1 - agW.tau) * agW.target_critic_weights.getD 0 0 :=
  ⟨rfl, (C3_soft_update_formula agW rfl rfl).1 0 (by decide)⟩

/-- C6: `get_shared_weights` is the two-element bundle (critic shared part
first, actor shared part second), and `set_shared_weights` of that bundle
leaves the whole agent — shared and per-task parameters alike — exactly
unchanged; moreover `set_shared_weights` never touches the per-task
parameters. -/
theorem C6_shared_weight_round_trip (ag : SharedDDPG) :
    ag.get_shared_weights =
      (ag.critic_network.get_shared_weights, ag.actor_network.get_shared_weights) ∧
    ag.set_shared_weights ag.get_shared_weights = ag ∧
    (∀ w, (ag.set_shared_weights w).critic_network.per_task =
        ag.critic_network.per_task ∧
      (ag.set_shared_weights w).actor_network.per_task =
        ag.actor_network.per_task) := by
  refine ⟨rfl, ?_, fun w => ⟨rfl, rfl⟩⟩
  cases ag with
  | mk bs ni na tau gamma rm nu sc cw tcw aw taw cnet anet =>
    cases cnet
    cases anet
    rfl

/-- C7 counterexample: with unfreeze threshold 1 and three epochs, the claim
predicts exactly one `unfreeze_shared_weights()` trigger, but the runner
calls it at every epoch from the threshold on (here: three times). -/
theorem C7_counterexample :
    ¬ ((runner argsC7 (fun _ => 0) wAtW).final.unfreezeCallEpochs.length = 1) := by
  decide

/-- C7 amended: with a positive unfreeze threshold the runner freezes the
shared weights exactly once before the first learning epoch and calls
`unfreeze_shared_weights()` at every epoch whose counter is at least the
threshold (hence first at the moment the counter reaches it — but not only
once); with threshold at most 0 neither freeze nor unfreeze is ever called. -/
theorem C7_amended_unfreeze_schedule (args : RunnerArgs) (scores : ℕ → ℚ)
    (wAt : ℕ → List ℚ × List ℚ) :
    (runner args scores wAt).final.freezeCalls =
      (if 0 < args.unfreezeEpoch then 1 else 0) ∧
    (runner args scores wAt).final.unfreezeCallEpochs =
      (List.range' 1 args.nEpochs).filter (unfreezeNow args) := by
  constructor
  · show ((List.range' 1 args.nEpochs).foldl (runnerStep args scores wAt) _).freezeCalls = _
    rw [foldl_runnerStep_freeze]
  · show ((List.range' 1 args.nEpochs).foldl (runnerStep args scores wAt) _).unfreezeCallEpochs = _
    rw [foldl_runnerStep_unfreeze]
    simp

/-- C8 counterexample: with `--save-shared` not requested, an evaluation
whose score sum exceeds the initial best (`-inf`) does not replace the
stored best bundle — the claim's unconditional replacement is false. -/
theorem C8_counterexample :
    ¬ ((runner argsC8 (fun _ => 5) wAtW).final.bestWeights = some (wAtW 1)) := by
  decide

/-- C8 amended: when `--save-shared` is requested, each post-learning
evaluation whose score sum is at least the best so far (ties included)
replaces the stored best bundle with the freshly exported one and records the
new best sum, an evaluation below the best leaves both unchanged, and at run
end the stored best bundle is persisted. -/
theorem C8_amended_best_tracking (args : RunnerArgs) (scores : ℕ → ℚ)
    (wAt : ℕ → List ℚ × List ℚ) (st : RunnerState) (n : ℕ)
    (hsave : args.saveShared = true) :
    (bestLe st.bestScoreSum (scores n) = true →
      (runnerStep args scores wAt st n).bestWeights = some (wAt n) ∧
      (runnerStep args scores wAt st n).bestScoreSum = some (scores n)) ∧
    (bestLe st.bestScoreSum (scores n) = false →
      (runnerStep args scores wAt st n).bestWeights = st.bestWeights ∧
      (runnerStep args scores wAt st n).bestScoreSum = st.bestScoreSum) ∧
    (runner args scores wAt).persisted =
      some (runner args scores wAt).final.bestWeights := by
  have hst1b : (if unfreezeNow args n then
      { st with unfreezeCallEpochs := st.unfreezeCallEpochs ++ [n] }
      else st).bestScoreSum = st.bestScoreSum := by
    split <;> rfl
  refine ⟨?_, ?_, ?_⟩
  · intro hge
    unfold runnerStep
    dsimp only
    rw [hst1b, hsave, hge]
    simp
  · intro hlt
    unfold runnerStep
    dsimp only
    rw [hst1b, hsave, hlt]
    simp only [Bool.and_false, Bool.false_eq_true, if_false]
    split <;> exact ⟨rfl, rfl⟩
  · unfold runner
    dsimp only
    rw [if_pos hsave]

/-- Witness for the amended C8 at concrete runner arguments with
`--save-shared` requested. -/
theorem C8_amended_witness :
    argsC8w.saveShared = true ∧
    bestLe (RunnerState.mk 0 [] none none).bestScoreSum 5 = true ∧
    (runnerStep argsC8w (fun _ => 5) wAtW (RunnerState.mk 0 [] none none) 1).bestWeights
      = some (wAtW 1) :=
  ⟨rfl, rfl,
    ((C8_amended_best_tracking argsC8w (fun _ => 5) wAtW
      (RunnerState.mk 0 [] none none) 1 rfl).1 rfl).1⟩

/-- C1: on a dataset whose task ids lie in the valid range `0 .. G-1` (the
domain spec §4.2 prescribes), `fit` first routes each transition to the
buffer of its own task id; the gradient-update cycle executes iff the routed
buffers are all initialized, each executed cycle increments `_n_updates` by
exactly one, every `get` happens on an initialized buffer, and when the guard
fails no `get` is invoked at all. -/
theorem C1_fit_routing_guard_counter (ag : SharedDDPG) (dataset : List Transition)
    (oracle : ℕ → ℕ → ℕ) (cf af : List ℚ → List ℚ) (tActor : ActorOracle)
    (tCritic : CriticOracle)
    (hvalid : ∀ t ∈ dataset,
      0 ≤ t.state.1 ∧ t.state.1 < (ag.replay_memory.length : ℤ)) :
    (SharedDDPG.fit ag dataset oracle cf af tActor tCritic).indexError = false ∧
    (SharedDDPG.fit ag dataset oracle cf af tActor tCritic).agent.replay_memory =
      routedMems ag dataset ∧
    (∀ j, j < ag.replay_memory.length →
      (routedMems ag dataset).getD j default =
        (if (j : ℤ) ∈ dataset.map (fun t => t.state.1) then
          (ag.replay_memory.getD j default).add
            (dataset.filter fun t => decide (t.state.1 = (j : ℤ)))
        else ag.replay_memory.getD j default)) ∧
    (fitCondition ag dataset = true →
      (SharedDDPG.fit ag dataset oracle cf af tActor tCritic).agent.n_updates =
        ag.n_updates + 1 ∧
      (SharedDDPG.fit ag dataset oracle cf af tActor tCritic).getCalls =
        List.range ag.replay_memory.length ∧
      (∀ i ∈ (SharedDDPG.fit ag dataset oracle cf af tActor tCritic).getCalls,
        ((routedMems ag dataset).getD i default).initialized = true)) ∧
    (fitCondition ag dataset = false →
      (SharedDDPG.fit ag dataset oracle cf af tActor tCritic).agent.n_updates =
        ag.n_updates ∧
      (SharedDDPG.fit ag dataset oracle cf af tActor tCritic).getCalls = []) := by
  obtain ⟨herr, hlen, hroute⟩ := routedMems_spec ag dataset hvalid
  refine ⟨?_, ?_, hroute, ?_, ?_⟩
  · rw [fit_indexError_eq, herr]
  · exact fit_agent_replay_eq ag dataset oracle cf af tActor tCritic
  · intro hcond
    rw [fit_cond_eq ag dataset oracle cf af tActor tCritic herr hcond]
    refine ⟨updateCycle_agent_n_updates .., ?_, ?_⟩
    · rw [updateCycle_getCalls, fillFold_calls]
      show List.range (routedMems ag dataset).length = _
      rw [hlen]
    · intro i hi
      rw [updateCycle_getCalls, fillFold_calls] at hi
      replace hi : i ∈ List.range (routedMems ag dataset).length := hi
      exact fitCondition_initialized ag dataset hcond i (List.mem_range.mp hi)
  · intro hcond
    have hcondf : fitCondition ag dataset = false := hcond
    rw [fit_nocond_eq ag dataset oracle cf af tActor tCritic herr hcondf]
    exact ⟨rfl, rfl⟩

/-- Witness for C1: two tasks, one transition each; the guard holds after
routing, the counter increments and both buffers are sampled. -/
theorem C1_witness :
    (∀ t ∈ dsW, 0 ≤ t.state.1 ∧ t.state.1 < (agW.replay_memory.length : ℤ)) ∧
    fitCondition agW dsW = true ∧
    (SharedDDPG.fit agW dsW orW id id taW tcW).indexError = false ∧
    (SharedDDPG.fit agW dsW orW id id taW tcW).agent.n_updates = agW.n_updates + 1 ∧
    (SharedDDPG.fit agW dsW orW id id taW tcW).getCalls =
      List.range agW.replay_memory.length :=
  ⟨by decide, by decide,
    (C1_fit_routing_guard_counter agW dsW orW id id taW tcW (by decide)).1,
    ((C1_fit_routing_guard_counter agW dsW orW id id taW tcW (by decide)).2.2.2.1
      (by decide)).1,
    ((C1_fit_routing_guard_counter agW dsW orW id id taW tcW (by decide)).2.2.2.1
      (by decide)).2.1⟩

/-- C10: `fit` reads a transition's task id from `d[0][0]` (the first entry
of the state component, `Transition.state.1` in this embedding); on a dataset
with valid task ids, exactly the buffers whose id occurs in the dataset
receive an `add` (with precisely their own transitions, in dataset order),
and every other buffer is left completely unmodified. -/
theorem C10_routing_frame (ag : SharedDDPG) (dataset : List Transition)
    (oracle : ℕ → ℕ → ℕ) (cf af : List ℚ → List ℚ) (tActor : ActorOracle)
    (tCritic : CriticOracle)
    (hvalid : ∀ t ∈ dataset,
      0 ≤ t.state.1 ∧ t.state.1 < (ag.replay_memory.length : ℤ)) :
    (SharedDDPG.fit ag dataset oracle cf af tActor tCritic).indexError = false ∧
    (SharedDDPG.fit ag dataset oracle cf af tActor tCritic).agent.replay_memory.length =
      ag.replay_memory.length ∧
    (∀ j, j < ag.replay_memory.length →
      (j : ℤ) ∉ dataset.map (fun t => t.state.1) →
      (SharedDDPG.fit ag dataset oracle cf af tActor tCritic).agent.replay_memory.getD
          j default = ag.replay_memory.getD j default) ∧
    (∀ j, j < ag.replay_memory.length →
      (j : ℤ) ∈ dataset.map (fun t => t.state.1) →
      (SharedDDPG.fit ag dataset oracle cf af tActor tCritic).agent.replay_memory.getD
          j default =
        (ag.replay_memory.getD j default).add
          (dataset.filter fun t => decide (t.state.1 = (j : ℤ)))) := by
  obtain ⟨herr, hlen, hroute⟩ := routedMems_spec ag dataset hvalid
  have hrep := fit_agent_replay_eq ag dataset oracle cf af tActor tCritic
  refine ⟨?_, ?_, ?_, ?_⟩
  · rw [fit_indexError_eq, herr]
  · rw [hrep, hlen]
  · intro j hj hnot
    rw [hrep, hroute j hj, if_neg hnot]
  · intro j hj hmem
    rw [hrep, hroute j hj, if_pos hmem]

/-- Witness for C10: task id 1 occurs in the singleton dataset, so buffer 1
receives exactly that transition while buffer 0 stays untouched. -/
theorem C10_witness :
    (∀ t ∈ [tw1], 0 ≤ t.state.1 ∧ t.state.1 < (agW.replay_memory.length : ℤ)) ∧
    (0 : ℤ) ∉ [tw1].map (fun t => t.state.1) ∧
    (SharedDDPG.fit agW [tw1] orW id id taW tcW).agent.replay_memory.getD 0 default =
      agW.replay_memory.getD 0 default ∧
    (SharedDDPG.fit agW [tw1] orW id id taW tcW).agent.replay_memory.getD 1 default =
      (agW.replay_memory.getD 1 default).add
        ([tw1].filter fun t => decide (t.state.1 = (1 : ℤ))) :=
  ⟨by decide, by decide,
    (C10_routing_frame agW [tw1] orW id id taW tcW (by decide)).2.2.1 0 (by decide)
      (by decide),
    (C10_routing_frame agW [tw1] orW id id taW tcW (by decide)).2.2.2 1 (by decide)
      (by decide)⟩

/-- C5 counterexample: with two tasks, a dataset carrying the out-of-range
task id `-1` makes `fit` raise no error at all — Python's negative indexing
routes the transition into buffer 1, a wrong task's buffer — contradicting
the claimed immediate `InvalidTaskIdError`. -/
theorem C5_counterexample :
    (SharedDDPG.fit agW [twNeg] orW id id taW tcW).indexError = false ∧
    (SharedDDPG.fit agW [twNeg] orW id id taW tcW).agent.replay_memory.getD 1 default =
      rmW.add [twNeg] := by
  decide

/-- C5 amended: `fit` performs no task-id validation and no
`InvalidTaskIdError` exists.  A dataset containing an id at or beyond the
task count (and none below `-G`) aborts `fit` with a generic index error
(raised only when the routing loop, which processes ids in ascending order,
reaches that id); ids in `-G .. G-1` raise no error at all, negative ones
being routed to the buffer `G + id` of a wrong task. -/
theorem C5_amended_index_behavior (ag : SharedDDPG) (dataset : List Transition)
    (oracle : ℕ → ℕ → ℕ) (cf af : List ℚ → List ℚ) (tActor : ActorOracle)
    (tCritic : CriticOracle) :
    ((∃ t ∈ dataset, (ag.replay_memory.length : ℤ) ≤ t.state.1) →
      (∀ t ∈ dataset, -(ag.replay_memory.length : ℤ) ≤ t.state.1) →
      (SharedDDPG.fit ag dataset oracle cf af tActor tCritic).indexError = true) ∧
    ((∀ t ∈ dataset, -(ag.replay_memory.length : ℤ) ≤ t.state.1 ∧
        t.state.1 < (ag.replay_memory.length : ℤ)) →
      (SharedDDPG.fit ag dataset oracle cf af tActor tCritic).indexError = false) := by
  constructor
  · rintro ⟨t, ht, htg⟩ _
    rw [fit_indexError_eq]
    rw [routeErr, routeGames_err_iff]
    refine ⟨t.state.1, ?_, ?_⟩
    · rw [mem_uniqueSorted]
      exact List.mem_map.mpr ⟨t, ht, rfl⟩
    · rw [pyIdx_none_iff]
      exact Or.inr htg
  · intro hvalid
    rw [fit_indexError_eq]
    rcases h : routeErr ag dataset with _ | _
    · rfl
    · exfalso
      rw [routeErr, routeGames_err_iff] at h
      obtain ⟨g, hg, hnone⟩ := h
      rw [mem_uniqueSorted] at hg
      obtain ⟨t, ht, rfl⟩ := List.mem_map.mp hg
      rw [pyIdx_none_iff] at hnone
      obtain ⟨hlo, hhi⟩ := hvalid t ht
      omega

/-- Witness for the amended C5: id 2 with two tasks errors; ids 0 and 1 do
not. -/
theorem C5_amended_witness :
    (∃ t ∈ [tw0, twBig], (agW.replay_memory.length : ℤ) ≤ t.state.1) ∧
    (∀ t ∈ [tw0, twBig], -(agW.replay_memory.length : ℤ) ≤ t.state.1) ∧
    (SharedDDPG.fit agW [tw0, twBig] orW id id taW tcW).indexError = true ∧
    (SharedDDPG.fit agW dsW orW id id taW tcW).indexError = false :=
  ⟨by decide, by decide,
    (C5_amended_index_behavior agW [tw0, twBig] orW id id taW tcW).1 (by decide)
      (by decide),
    (C5_amended_index_behavior agW dsW orW id id taW tcW).2 (by decide)⟩

/-- C2: in every executed update cycle the critic's fitted target at row `r`
(task `i = r / B`) is `reward + gamma_i * Qtarget * (1 - absorbing)`, where
`Qtarget` is the target critic evaluated on (next state, target-actor action)
— so for an absorbing row the bootstrapped term is exactly zero regardless of
the target critic's output and the target equals the immediate reward, which
is never zeroed. -/
theorem C2_critic_target_formula (ag : SharedDDPG) (dataset : List Transition)
    (oracle : ℕ → ℕ → ℕ) (cf af : List ℚ → List ℚ) (tActor : ActorOracle)
    (tCritic : CriticOracle) (hB : 0 < ag.batch_size)
    (hvalid : ∀ t ∈ dataset,
      0 ≤ t.state.1 ∧ t.state.1 < (ag.replay_memory.length : ℤ))
    (hcond : fitCondition ag dataset = true) :
    ∃ q, (SharedDDPG.fit ag dataset oracle cf af tActor tCritic).criticTarget =
        some q ∧
      ∀ r, r < ag.batch_size * ag.replay_memory.length →
        (q r =
          (SharedDDPG.fit ag dataset oracle cf af tActor tCritic).agent.scratch.reward r +
          (SharedDDPG.fit ag dataset oracle cf af tActor tCritic).agent.next_q
            tActor tCritic r) ∧
        ((SharedDDPG.fit ag dataset oracle cf af tActor tCritic).agent.scratch.reward r =
          (sampleOf (routedMems ag dataset) ag.batch_size oracle r).reward) ∧
        ((SharedDDPG.fit ag dataset oracle cf af tActor tCritic).agent.next_q
            tActor tCritic r =
          tCritic
            (SharedDDPG.fit ag dataset oracle cf af tActor tCritic).agent.scratch.next_state
            (tActor
              (SharedDDPG.fit ag dataset oracle cf af tActor tCritic).agent.scratch.next_state
              (SharedDDPG.fit ag dataset oracle cf af tActor tCritic).agent.scratch.next_state_idxs)
            (SharedDDPG.fit ag dataset oracle cf af tActor tCritic).agent.scratch.next_state_idxs
            r
            * ag.gamma.getD (r / ag.batch_size) 0
            * (1 - (if (sampleOf (routedMems ag dataset) ag.batch_size oracle r).absorbing
                then 1 else 0))) ∧
        ((sampleOf (routedMems ag dataset) ag.batch_size oracle r).absorbing = true →
          q r = (sampleOf (routedMems ag dataset) ag.batch_size oracle r).reward) := by
  obtain ⟨herr, hlen, _⟩ := routedMems_spec ag dataset hvalid
  rw [fit_cond_eq ag dataset oracle cf af tActor tCritic herr hcond]
  have hinit : ∀ i, i < (routedMems ag dataset).length →
      ((routedMems ag dataset).getD i default).initialized = true :=
    fitCondition_initialized ag dataset hcond
  obtain ⟨hcalls, hunc, hcov⟩ :=
    fill_char { ag with replay_memory := routedMems ag dataset } oracle
      { ag with replay_memory := routedMems ag dataset }.scratch [] hB
      (routedMems ag dataset).length hinit
  refine ⟨_, updateCycle_criticTarget { ag with replay_memory := routedMems ag dataset }
    oracle cf af tActor tCritic, ?_⟩
  intro r hr
  have hr0 : r < ag.batch_size * (routedMems ag dataset).length := by
    rw [hlen]; exact hr
  obtain ⟨hv1, hv2, hv3, hv4, hv5, hv6, hv7, hv8, hv9, hv10⟩ := hcov r hr0
  have hreward : (updateCycle { ag with replay_memory := routedMems ag dataset }
      oracle cf af tActor tCritic).agent.scratch.reward r =
      (sampleOf (routedMems ag dataset) ag.batch_size oracle r).reward := by
    rw [updateCycle_agent_scratch]; exact hv3
  have habs : (updateCycle { ag with replay_memory := routedMems ag dataset }
      oracle cf af tActor tCritic).agent.scratch.absorbing r =
      (if (sampleOf (routedMems ag dataset) ag.batch_size oracle r).absorbing
        then 1 else 0) := by
    rw [updateCycle_agent_scratch]; exact hv4
  have hnq : (updateCycle { ag with replay_memory := routedMems ag dataset }
      oracle cf af tActor tCritic).agent.next_q tActor tCritic r =
      tCritic
        (updateCycle { ag with replay_memory := routedMems ag dataset }
          oracle cf af tActor tCritic).agent.scratch.next_state
        (tActor
          (updateCycle { ag with replay_memory := routedMems ag dataset }
            oracle cf af tActor tCritic).agent.scratch.next_state
          (updateCycle { ag with replay_memory := routedMems ag dataset }
            oracle cf af tActor tCritic).agent.scratch.next_state_idxs)
        (updateCycle { ag with replay_memory := routedMems ag dataset }
          oracle cf af tActor tCritic).agent.scratch.next_state_idxs r
        * ag.gamma.getD (r / ag.batch_size) 0
        * (1 - (if (sampleOf (routedMems ag dataset) ag.batch_size oracle r).absorbing
            then 1 else 0)) := by
    rw [next_q_eq (updateCycle { ag with replay_memory := routedMems ag dataset }
      oracle cf af tActor tCritic).agent tActor tCritic hB r, habs]
    rfl
  refine ⟨rfl, hreward, hnq, ?_⟩
  intro hflag
  show (updateCycle { ag with replay_memory := routedMems ag dataset }
      oracle cf af tActor tCritic).agent.scratch.reward r +
    (updateCycle { ag with replay_memory := routedMems ag dataset }
      oracle cf af tActor tCritic).agent.next_q tActor tCritic r = _
  rw [hreward, hnq, hflag]
  norm_num

/-- C9: after a `fit` call whose update cycle executed, the combined batch is
laid out as contiguous blocks of `batch_size` rows in ascending task order:
row `r` is tagged with task `r / batch_size` in both per-row index arrays and
holds the transition sampled from that task's routed buffer, and the
blockwise `_next_q` applies exactly task `r / batch_size`'s discount and the
block's absorbing mask to row `r`. -/
theorem C9_block_layout (ag : SharedDDPG) (dataset : List Transition)
    (oracle : ℕ → ℕ → ℕ) (cf af : List ℚ → List ℚ) (tActor : ActorOracle)
    (tCritic : CriticOracle) (hB : 0 < ag.batch_size)
    (hvalid : ∀ t ∈ dataset,
      0 ≤ t.state.1 ∧ t.state.1 < (ag.replay_memory.length : ℤ))
    (hcond : fitCondition ag dataset = true) :
    ∀ r, r < ag.batch_size * ag.replay_memory.length →
      (SharedDDPG.fit ag dataset oracle cf af tActor tCritic).agent.scratch.state_idxs r =
        r / ag.batch_size ∧
      (SharedDDPG.fit ag dataset oracle cf af tActor tCritic).agent.scratch.next_state_idxs r =
        r / ag.batch_size ∧
      (SharedDDPG.fit ag dataset oracle cf af tActor tCritic).agent.scratch.reward r =
        (sampleOf (routedMems ag dataset) ag.batch_size oracle r).reward ∧
      (SharedDDPG.fit ag dataset oracle cf af tActor tCritic).agent.scratch.absorbing r =
        (if (sampleOf (routedMems ag dataset) ag.batch_size oracle r).absorbing
          then 1 else 0) ∧
      (∀ c, c < ag.n_input_per_mdp.getD (r / ag.batch_size) 0 →
        (SharedDDPG.fit ag dataset oracle cf af tActor tCritic).agent.scratch.state r c =
          (sampleOf (routedMems ag dataset) ag.batch_size oracle r).state.2.getD c 0) ∧
      (∀ c, c < ag.n_actions_per_head.getD (r / ag.batch_size) 0 →
        (SharedDDPG.fit ag dataset oracle cf af tActor tCritic).agent.scratch.action r c =
          (sampleOf (routedMems ag dataset) ag.batch_size oracle r).action.getD c 0) ∧
      (∀ c, c < ag.n_input_per_mdp.getD (r / ag.batch_size) 0 →
        (SharedDDPG.fit ag dataset oracle cf af tActor tCritic).agent.scratch.next_state r c =
          (sampleOf (routedMems ag dataset) ag.batch_size oracle r).next_state.2.getD c 0) ∧
      ((SharedDDPG.fit ag dataset oracle cf af tActor tCritic).agent.next_q
          tActor tCritic r =
        tCritic
          (SharedDDPG.fit ag dataset oracle cf af tActor tCritic).agent.scratch.next_state
          (tActor
            (SharedDDPG.fit ag dataset oracle cf af tActor tCritic).agent.scratch.next_state
            (SharedDDPG.fit ag dataset oracle cf af tActor tCritic).agent.scratch.next_state_idxs)
          (SharedDDPG.fit ag dataset oracle cf af tActor tCritic).agent.scratch.next_state_idxs
          r
          * ag.gamma.getD (r / ag.batch_size) 0
          * (1 - (SharedDDPG.fit ag dataset oracle cf af tActor
              tCritic).agent.scratch.absorbing r)) := by
  obtain ⟨herr, hlen, _⟩ := routedMems_spec ag dataset hvalid
  rw [fit_cond_eq ag dataset oracle cf af tActor tCritic herr hcond]
  have hinit : ∀ i, i < (routedMems ag dataset).length →
      ((routedMems ag dataset).getD i default).initialized = true :=
    fitCondition_initialized ag dataset hcond
  obtain ⟨hcalls, hunc, hcov⟩ :=
    fill_char { ag with replay_memory := routedMems ag dataset } oracle
      { ag with replay_memory := routedMems ag dataset }.scratch [] hB
      (routedMems ag dataset).length hinit
  intro r hr
  have hr0 : r < ag.batch_size * (routedMems ag dataset).length := by
    rw [hlen]; exact hr
  obtain ⟨hv1, hv2, hv3, hv4, hv5, hv6, hv7, hv8, hv9, hv10⟩ := hcov r hr0
  refine ⟨?_, ?_, ?_, ?_, ?_, ?_, ?_, ?_⟩
  · rw [updateCycle_agent_scratch]; exact hv1
  · rw [updateCycle_agent_scratch]; exact hv2
  · rw [updateCycle_agent_scratch]; exact hv3
  · rw [updateCycle_agent_scratch]; exact hv4
  · intro c hc
    rw [updateCycle_agent_scratch]
    exact hv5 c hc
  · intro c hc
    rw [updateCycle_agent_scratch]
    exact hv7 c hc
  · intro c hc
    rw [updateCycle_agent_scratch]
    exact hv9 c hc
  · exact next_q_eq (updateCycle { ag with replay_memory := routedMems ag dataset }
      oracle cf af tActor tCritic).agent tActor tCritic hB r

/-- C4: the scratch tensors are zero everywhere after allocation, and every
`fit` call preserves the padding invariant — state and next-state entries
beyond the row's task's input width, and action entries beyond its action
width, stay exactly zero, because only the narrower prefixes are ever
written. -/
theorem C4_padding_invariant (ag : SharedDDPG) (dataset : List Transition)
    (oracle : ℕ → ℕ → ℕ) (cf af : List ℚ → List ℚ) (tActor : ActorOracle)
    (tCritic : CriticOracle) (hB : 0 < ag.batch_size) :
    Padded ag.allocate_memory ∧
    (Padded ag →
      Padded (SharedDDPG.fit ag dataset oracle cf af tActor tCritic).agent) := by
  constructor
  · intro r c
    exact ⟨fun _ => ⟨rfl, rfl⟩, fun _ => rfl⟩
  · intro hP
    by_cases h1 : routeErr ag dataset = true
    · rw [fit_err_eq ag dataset oracle cf af tActor tCritic h1]
      exact hP
    · have h1f : routeErr ag dataset = false := Bool.not_eq_true _ |>.mp h1
      by_cases h2 : fitCondition ag dataset = true
      · rw [fit_cond_eq ag dataset oracle cf af tActor tCritic h1f h2]
        have hinit : ∀ i, i < (routedMems ag dataset).length →
            ((routedMems ag dataset).getD i default).initialized = true :=
          fitCondition_initialized ag dataset h2
        obtain ⟨hcalls, hunc, hcov⟩ :=
          fill_char { ag with replay_memory := routedMems ag dataset } oracle
            { ag with replay_memory := routedMems ag dataset }.scratch [] hB
            (routedMems ag dataset).length hinit
        intro r c
        by_cases hr : r < ag.batch_size * (routedMems ag dataset).length
        · obtain ⟨_, _, _, _, _, hv6, _, hv8, _, hv10⟩ := hcov r hr
          refine ⟨fun hc => ⟨?_, ?_⟩, fun hc => ?_⟩
          · rw [updateCycle_agent_scratch, hv6 c hc]
            exact ((hP r c).1 hc).1
          · rw [updateCycle_agent_scratch, hv10 c hc]
            exact ((hP r c).1 hc).2
          · rw [updateCycle_agent_scratch, hv8 c hc]
            exact (hP r c).2 hc
        · have hge : ag.batch_size * (routedMems ag dataset).length ≤ r := by omega
          obtain ⟨_, _, _, _, hu5, hu6, hu7⟩ := hunc r hge
          refine ⟨fun hc => ⟨?_, ?_⟩, fun hc => ?_⟩
          · rw [updateCycle_agent_scratch, hu5 c]
            exact ((hP r c).1 hc).1
          · rw [updateCycle_agent_scratch, hu7 c]
            exact ((hP r c).1 hc).2
          · rw [updateCycle_agent_scratch, hu6 c]
            exact (hP r c).2 hc
      · have h2f : fitCondition ag dataset = false := Bool.not_eq_true _ |>.mp h2
        rw [fit_nocond_eq ag dataset oracle cf af tActor tCritic h1f h2f]
        exact hP

/-- Witness for C2: row 1 of the assembled batch holds the absorbing task-1
transition, and its critic target is exactly the immediate reward even though
the target critic oracle returns a nonzero value. -/
theorem C2_witness :
    0 < agW.batch_size ∧ fitCondition agW dsW = true ∧
    (∃ q, (SharedDDPG.fit agW dsW orW id id taW tcW).criticTarget = some q ∧
      q 1 = tw1.reward) := by
  refine ⟨by decide, by decide, ?_⟩
  obtain ⟨q, hq, hall⟩ :=
    C2_critic_target_formula agW dsW orW id id taW tcW (by decide) (by decide)
      (by decide)
  refine ⟨q, hq, ?_⟩
  have h1 := hall 1 (by decide)
  have habs : (sampleOf (routedMems agW dsW) agW.batch_size orW 1).absorbing = true := by
    decide
  have hqr := h1.2.2.2 habs
  rw [hqr]
  decide

/-- Witness for C9 at rows of the concrete two-task agent: row 1 is tagged
with task 1 and holds task 1's sampled observation. -/
theorem C9_witness :
    0 < agW.batch_size ∧ fitCondition agW dsW = true ∧
    (SharedDDPG.fit agW dsW orW id id taW tcW).agent.scratch.state_idxs 1 = 1 ∧
    (SharedDDPG.fit agW dsW orW id id taW tcW).agent.scratch.state 1 0 =
      tw1.state.2.getD 0 0 := by
  refine ⟨by decide, by decide, ?_, ?_⟩
  · have h := C9_block_layout agW dsW orW id id taW tcW (by decide) (by decide)
      (by decide) 1 (by decide)
    rw [h.1]
    decide
  · have h := C9_block_layout agW dsW orW id id taW tcW (by decide) (by decide)
      (by decide) 1 (by decide)
    have h5 := h.2.2.2.2.1 0 (by decide)
    rw [h5]
    decide

/-- Witness for C4: a freshly allocated agent satisfies the padding
invariant and a full `fit` call keeps it. -/
theorem C4_witness :
    0 < agW.batch_size ∧
    Padded (SharedDDPG.fit agW.allocate_memory dsW orW id id taW tcW).agent :=
  ⟨by decide,
    (C4_padding_invariant agW.allocate_memory dsW orW id id taW tcW (by decide)).2
      ((C4_padding_invariant agW dsW orW id id taW tcW (by decide)).1)⟩
